import Mathlib

/-!
Verification of the countdown core of the JEE Exam Tracker repository.

The development shallowly embeds the date/time arithmetic, formatting,
timezone-bridge, reminder-scheduling, settings-loading and reminder-toggle
logic of the repository:

- `utils/dateUtils.ts`: `calculateCountdown`, `formatTime`,
  `formatHumanReadable`, `getFormattedDateTimeLocal`,
  `getUTCFromDateTimeLocalAndTz`, `isValidDateInput`;
- `utils/localStorageUtils.ts`: `loadSettings`;
- `App.tsx`: `scheduleNotifications` and `handleReminderChange`.

Instants are modelled as integers (milliseconds since the Unix epoch),
exactly the time values of the host platform.  The calendar and string
parsing behaviour that the repository delegates to the host platform
(`Intl.DateTimeFormat`, the `Date` constructor) is modelled from the
specification of the TimezoneBridge component, using the proleptic
Gregorian calendar.
-/

/-! ## Definitions -/

def MILLISECONDS_IN_SECOND : Nat := 1000

def MILLISECONDS_IN_MINUTE : Nat := 60 * MILLISECONDS_IN_SECOND

def MILLISECONDS_IN_HOUR : Nat := 60 * MILLISECONDS_IN_MINUTE

def MILLISECONDS_IN_DAY : Nat := 24 * MILLISECONDS_IN_HOUR

/-- Embedding of the `CountdownTime` record of `types.ts`. -/
structure CountdownTime where
  totalMs : Int
  days : Nat
  hours : Nat
  minutes : Nat
  seconds : Nat
  isPast : Bool
  deriving DecidableEq, Repr

/-- Embedding of `calculateCountdown` of `utils/dateUtils.ts`.  The two
`Date` arguments are represented by their millisecond time values. -/
def calculateCountdown (targetMs nowMs : Int) : CountdownTime :=
  let totalMs := targetMs - nowMs
  let isPast := decide (totalMs < 0)
  let absTotalMs := totalMs.natAbs
  { totalMs := totalMs
    days := absTotalMs / MILLISECONDS_IN_DAY
    hours := absTotalMs % MILLISECONDS_IN_DAY / MILLISECONDS_IN_HOUR
    minutes := absTotalMs % MILLISECONDS_IN_HOUR / MILLISECONDS_IN_MINUTE
    seconds := absTotalMs % MILLISECONDS_IN_MINUTE / MILLISECONDS_IN_SECOND
    isPast := isPast }

/-- Decimal digit characters of a natural number, most significant first;
models the JavaScript rendering of a non-negative integer in a template
string. -/
def decChars (n : Nat) : List Char :=
  if n = 0 then [('0')] else (Nat.digits 10 n).reverse.map Nat.digitChar

/-- Decimal string of a natural number (JavaScript `String(n)`). -/
def decStr (n : Nat) : String :=
  String.mk (decChars n)

/-- Model of JavaScript `s.padStart(2, '0')`. -/
def padStart2 (s : String) : String :=
  if 2 ≤ s.length then s
  else String.mk (List.replicate (2 - s.length) ('0')) ++ s

/-- Two-digit zero-padded rendering of a field, as in `formatTime`. -/
def pad2 (n : Nat) : String :=
  padStart2 (decStr n)

/-- Embedding of `formatTime` of `utils/dateUtils.ts`. The source returns
the same all-zero literal in both branches of its `isPast` ternary in the
sub-second special case; the ternary is kept as written. -/
def formatTime (c : CountdownTime) (showSeconds : Bool) : String :=
  if c.totalMs.natAbs < 1000 ∧ showSeconds = false then
    if c.isPast then "00 : 00 : 00" else "00 : 00 : 00"
  else
    let sign := if c.isPast = true ∧ c.totalMs ≠ 0 then "-" else ""
    let d := pad2 c.days
    let h := pad2 c.hours
    let m := pad2 c.minutes
    let s := pad2 c.seconds
    if showSeconds then
      sign ++ d ++ " : " ++ h ++ " : " ++ m ++ " : " ++ s
    else
      sign ++ d ++ " : " ++ h ++ " : " ++ m

/-- Rendering of one field with its unit, pluralized exactly as the source
template `${n} unit${n !== 1 ? 's' : ''}` does. -/
def pluralPart (n : Nat) (unit : String) : String :=
  decStr n ++ " " ++ unit ++ (if n ≠ 1 then "s" else "")

/-- Embedding of `formatHumanReadable` of `utils/dateUtils.ts`; the three
conditional `push` statements are rendered as list concatenation and
`join(', ')` as `String.intercalate`. -/
def formatHumanReadable (c : CountdownTime) : String :=
  if c.totalMs.natAbs < 1000 then
    if c.isPast then "Exam passed a moment ago." else "Less than a second remaining."
  else
    let parts : List String :=
      (if 0 < c.days then [pluralPart c.days "day"] else []) ++
      (if 0 < c.hours then [pluralPart c.hours "hour"] else []) ++
      (if 0 < c.minutes then [pluralPart c.minutes "minute"] else [])
    if parts = [] then
      if c.isPast then "Exam passed." else "Less than a minute remaining."
    else
      String.intercalate ", " parts ++ " "
        ++ (if c.isPast then "ago" else "remaining") ++ "."

/-- Statement-side rendering for claim C7, following the claim text: filter
the non-zero fields among days, hours, minutes, pluralize each, join with
commas, and append the tense suffix; with the sub-second and empty-list
special cases as stated. -/
def humanReadableOfClaim (c : CountdownTime) : String :=
  if c.totalMs.natAbs < 1000 then
    if c.isPast then "Exam passed a moment ago." else "Less than a second remaining."
  else
    let fields : List (Nat × String) :=
      [(c.days, "day"), (c.hours, "hour"), (c.minutes, "minute")]
    let parts := (fields.filter (fun p => decide (0 < p.1))).map
      (fun p => pluralPart p.1 p.2)
    if parts = [] then
      if c.isPast then "Exam passed." else "Less than a minute remaining."
    else
      String.intercalate ", " parts
        ++ (if c.isPast then " ago." else " remaining.")

/-- Armed one-shot reminder timer: the offset it was armed for together with
its absolute fire instant `target - offset`. -/
structure ArmedTimer where
  offset : Int
  fireAt : Int
  deriving DecidableEq, Repr

/-- Embedding of `scheduleNotifications` of `App.tsx`.  The previously armed
timers (the `notificationTimersRef` state, first argument) are always
cleared; then, unless notifications are disabled, permission is not granted,
or the countdown is already past, one one-shot timer is armed per entry of
the reminder list whose fire time lies strictly after the clock reading
`now`.  The clock is modelled as a single reading: the specification treats
the whole call as one evaluation point of the externally supplied clock. -/
def scheduleNotifications (_prev : List ArmedTimer)
    (notificationEnabled granted isPast : Bool)
    (target now : Int) (reminders : List Int) : List ArmedTimer :=
  if notificationEnabled = false ∨ granted = false ∨ isPast = true then []
  else
    reminders.filterMap (fun reminderOffset =>
      let reminderTime := target - reminderOffset
      if now < reminderTime then some ⟨reminderOffset, reminderTime⟩ else none)

/-- Embedding of the timer teardown `notificationTimersRef.current.forEach(clearTimeout)`
followed by resetting the ref to an empty array. -/
def cancelAllTimers (_prev : List ArmedTimer) : List ArmedTimer := []

def ReminderOption_NONE : Int := 0

def ReminderOption_ONE_HOUR : Int := 1 * 60 * 60 * 1000

def ReminderOption_ONE_DAY : Int := 24 * 60 * 60 * 1000

def ReminderOption_SEVEN_DAYS : Int := 7 * 24 * 60 * 60 * 1000

def ReminderOption_THIRTY_DAYS : Int := 30 * 24 * 60 * 60 * 1000

/-- Embedding of the `AppSettings` record of `types.ts`. -/
structure AppSettings where
  title : String
  targetDate : String
  startDate : String
  showSeconds : Bool
  useKolkataTimezone : Bool
  baseTheme : String
  colorScheme : String
  notificationReminders : List Int
  notificationEnabled : Bool
  deriving DecidableEq, Repr

/-- Partial settings record as recovered from `JSON.parse` of the stored
value: any individual field may be absent (or `null`), which the source
replaces through `??`. -/
structure StoredSettings where
  title : Option String
  targetDate : Option String
  startDate : Option String
  showSeconds : Option Bool
  useKolkataTimezone : Option Bool
  baseTheme : Option String
  colorScheme : Option String
  notificationReminders : Option (List Int)
  notificationEnabled : Option Bool

def DEFAULT_TARGET_DATE_ISO : String := "2026-01-21T00:00:00.000+05:30"

/-- Embedding of `loadSettings` of `utils/localStorageUtils.ts`.  The
argument `stored` is `none` when no value is stored, when reading the
storage throws, or when parsing fails (the source catches and falls back to
the defaults); `defaultStartDateIso` stands for the module-load-time
`new Date().toISOString()` value.  The function is total: it never throws
and always returns a fully populated record. -/
def loadSettings (stored : Option StoredSettings)
    (defaultStartDateIso : String) : AppSettings :=
  match stored with
  | some parsedSettings =>
    { title := parsedSettings.title.getD "JEE Exam"
      targetDate := parsedSettings.targetDate.getD DEFAULT_TARGET_DATE_ISO
      startDate := parsedSettings.startDate.getD defaultStartDateIso
      showSeconds := parsedSettings.showSeconds.getD true
      useKolkataTimezone := true
      baseTheme := "dark"
      colorScheme := parsedSettings.colorScheme.getD "blue-ocean"
      notificationReminders := parsedSettings.notificationReminders.getD
        [ReminderOption_ONE_DAY, ReminderOption_ONE_HOUR]
      notificationEnabled := parsedSettings.notificationEnabled.getD false }
  | none =>
    { title := "JEE Exam"
      targetDate := DEFAULT_TARGET_DATE_ISO
      startDate := defaultStartDateIso
      showSeconds := true
      useKolkataTimezone := true
      baseTheme := "dark"
      colorScheme := "blue-ocean"
      notificationReminders := [ReminderOption_ONE_DAY, ReminderOption_ONE_HOUR]
      notificationEnabled := false }

/-- Model of the JavaScript idiom `[...new Set(xs)]`: keeps the first
occurrence of each element, in insertion order, exactly as `Set` iteration
does. -/
def dedupSeen (seen : List Int) : List Int → List Int
  | [] => []
  | a :: l => if a ∈ seen then dedupSeen seen l else a :: dedupSeen (a :: seen) l

/-- Deduplication of a list as by `[...new Set(xs)]`. -/
def dedupKeepFirst (xs : List Int) : List Int :=
  dedupSeen [] xs

/-- Embedding of `handleReminderChange` of `App.tsx` restricted to the
`notificationReminders` field it rewrites: checking a reminder appends it
and deduplicates through a `Set`; unchecking filters out every occurrence. -/
def handleReminderChange (prev : List Int) (reminder : Int)
    (isChecked : Bool) : List Int :=
  if isChecked then dedupKeepFirst (prev ++ [reminder])
  else prev.filter (fun r => decide (r ≠ reminder))

/-- Civil calendar date: year, month 1..12, day 1..31. -/
structure CivilDate where
  year : Int
  month : Nat
  day : Nat
  deriving DecidableEq, Repr

/-- Modelled from the spec: days from the epoch 1970-01-01 to the given
proleptic Gregorian civil date, as the host platform computes for an
offset-qualified timestamp. -/
def daysFromCivil (y : Int) (m d : Nat) : Int :=
  let yAdj : Int := y - (if m ≤ 2 then 1 else 0)
  let era : Int := yAdj / 400
  let yoe : Nat := (yAdj - era * 400).toNat
  let doy : Nat := (153 * (if 2 < m then m - 3 else m + 9) + 2) / 5 + d - 1
  let doe : Nat := yoe * 365 + yoe / 4 - yoe / 100 + doy
  era * 146097 + (doe : Int) - 719468

/-- Modelled from the spec: the proleptic Gregorian civil date containing
the given day number (days since the epoch 1970-01-01), as the host
platform observes it when formatting. -/
def civilFromDays (z : Int) : CivilDate :=
  let zAdj : Int := z + 719468
  let era : Int := zAdj / 146097
  let doe : Nat := (zAdj % 146097).toNat
  let yoe : Nat := (doe - doe / 1460 + doe / 36524 - doe / 146096) / 365
  let doy : Nat := doe - (365 * yoe + yoe / 4 - yoe / 100)
  let mp : Nat := (5 * doy + 2) / 153
  let d : Nat := doy - (153 * mp + 2) / 5 + 1
  let m : Nat := if mp < 10 then mp + 3 else mp - 9
  { year := era * 400 + yoe + (if m ≤ 2 then 1 else 0), month := m, day := d }

/-- Linear approximation used by `civilFromDays` to locate the year within
a 400-year era. -/
def yoeApprox (doe : Nat) : Nat :=
  doe - doe / 1460 + doe / 36524 - doe / 146096

/-- First day-of-era of year-of-era `y`. -/
def yoeFirstDoe (y : Nat) : Nat :=
  365 * y + y / 4 - y / 100

/-- Last day-of-era of year-of-era `y` (for `y < 400`). -/
def yoeLastDoe (y : Nat) : Nat :=
  if y = 399 then 146096 else yoeFirstDoe (y + 1) - 1

def TIMEZONE_KOLKATA : String := "Asia/Kolkata"

/-- Zone reference: the source only ever constructs two zones — the fixed
Asia/Kolkata zone, which `getUTCFromDateTimeLocalAndTz` treats as the
constant offset +05:30 (India has no DST), and the ambient host zone. -/
inductive ZoneRef where
  | kolkata : ZoneRef
  | browser : ZoneRef
  deriving DecidableEq, Repr

/-- Offset of a zone in whole minutes east of UTC.  The ambient host zone's
offset `amb` is resolved once at startup from the environment and injected,
as the specification directs. -/
def zoneOffsetMinutes (z : ZoneRef) (amb : Int) : Int :=
  match z with
  | ZoneRef.kolkata => 330
  | ZoneRef.browser => amb

/-- Naive local datetime value: the year, month, day, hour and minute of a
`YYYY-MM-DDTHH:MM` string, with no zone attached. -/
structure NaiveLocalDateTime where
  year : Int
  month : Nat
  day : Nat
  hour : Nat
  minute : Nat
  deriving DecidableEq, Repr

/-- Modelled from the spec: the civil fields of an instant as observed in a
zone, on a 24-hour clock — what the platform `Intl.DateTimeFormat` with the
`timeZone` option produces for `getFormattedDateTimeLocal`. -/
def toNaiveLocal (t : Int) (z : ZoneRef) (amb : Int) : NaiveLocalDateTime :=
  let localMs := t + zoneOffsetMinutes z amb * 60000
  let epochDays := localMs / 86400000
  let msOfDay := (localMs % 86400000).toNat
  let cd := civilFromDays epochDays
  { year := cd.year
    month := cd.month
    day := cd.day
    hour := msOfDay / 3600000
    minute := msOfDay % 3600000 / 60000 }

/-- Modelled from the spec: interpret naive local fields as wall-clock time
at the zone's offset and subtract the offset — what the platform `Date`
constructor computes for `getUTCFromDateTimeLocalAndTz`, which appends the
literal `+05:30` offset for the Kolkata zone and parses the bare string in
the host zone otherwise. -/
def fromNaiveLocal (ndt : NaiveLocalDateTime) (z : ZoneRef) (amb : Int) : Int :=
  daysFromCivil ndt.year ndt.month ndt.day * 86400000
    + (ndt.hour : Int) * 3600000 + (ndt.minute : Int) * 60000
    - zoneOffsetMinutes z amb * 60000

/-- Numeric value of a decimal digit character, if it is one. -/
def digitVal (c : Char) : Option Nat :=
  if c.isDigit then some (c.toNat - 48) else none

/-- Parse two digit characters as a two-digit number. -/
def parse2 (a b : Char) : Option Nat :=
  match digitVal a, digitVal b with
  | some x, some y => some (10 * x + y)
  | _, _ => none

/-- Parse four digit characters as a four-digit number. -/
def parse4 (a b c d : Char) : Option Nat :=
  match digitVal a, digitVal b, digitVal c, digitVal d with
  | some x, some y, some u, some v => some (1000 * x + 100 * y + 10 * u + v)
  | _, _, _, _ => none

/-- Modelled from the spec: platform parsing of the `YYYY-MM-DDTHH:MM`
naive-local format (the datetime-local value format).  Anything outside the
fixed-width digit layout, or with out-of-range month, day, hour or minute
fields, denotes an invalid instant. -/
def parseDateTimeLocal (s : String) : Option NaiveLocalDateTime :=
  match s.data with
  | [y1, y2, y3, y4, s1, m1, m2, s2, d1, d2, s3, h1, h2, s4, n1, n2] =>
    if s1 = ('-') ∧ s2 = ('-') ∧ s3 = ('T') ∧ s4 = (':') then
      match parse4 y1 y2 y3 y4, parse2 m1 m2, parse2 d1 d2,
          parse2 h1 h2, parse2 n1 n2 with
      | some y, some mo, some d, some h, some n =>
        if 1 ≤ mo ∧ mo ≤ 12 ∧ 1 ≤ d ∧ d ≤ 31 ∧ h ≤ 23 ∧ n ≤ 59 then
          some { year := (y : Int), month := mo, day := d, hour := h,
                 minute := n }
        else none
      | _, _, _, _, _ => none
    else none
  | _ => none

/-- Embedding of `getUTCFromDateTimeLocalAndTz` of `utils/dateUtils.ts`:
empty input yields the invalid instant (`none`, the model of an
invalid `Date`); otherwise the text is parsed in the naive-local format and
interpreted at the fixed +05:30 offset for the Kolkata zone or at the
ambient host offset for the browser zone. -/
def getUTCFromDateTimeLocalAndTz (dateTimeLocalString : String)
    (z : ZoneRef) (amb : Int) : Option Int :=
  if dateTimeLocalString = "" then none
  else (parseDateTimeLocal dateTimeLocalString).map
    (fun ndt => fromNaiveLocal ndt z amb)

/-- Embedding of `isValidDateInput` of `utils/dateUtils.ts`. -/
def isValidDateInput (dateString : String) (z : ZoneRef) (amb : Int) : Bool :=
  if dateString = "" then false
  else (getUTCFromDateTimeLocalAndTz dateString z amb).isSome

/-- Zero-padding of a string to a given width, as the formatter pads each
civil field. -/
def padStartWith0 (w : Nat) (s : String) : String :=
  if w ≤ s.length then s
  else String.mk (List.replicate (w - s.length) ('0')) ++ s

/-- Rendering of a (possibly negative) year, zero-padded to four digits. -/
def renderYear (y : Int) : String :=
  if y < 0 then "-" ++ padStartWith0 4 (decStr y.natAbs)
  else padStartWith0 4 (decStr y.toNat)

/-- Embedding of `getFormattedDateTimeLocal` of `utils/dateUtils.ts`: an
invalid date (`none`) yields the empty string; otherwise the civil fields
observed in the zone are rendered as `YYYY-MM-DDTHH:MM`. -/
def getFormattedDateTimeLocal (date : Option Int) (z : ZoneRef)
    (amb : Int) : String :=
  match date with
  | none => ""
  | some ms =>
    let ndt := toNaiveLocal ms z amb
    renderYear ndt.year ++ "-" ++ pad2 ndt.month ++ "-" ++ pad2 ndt.day
      ++ "T" ++ pad2 ndt.hour ++ ":" ++ pad2 ndt.minute

/-! ## Theorems -/

/-- Claim C1: for every pair of instants, `calculateCountdown` returns the
signed difference as `totalMs`, sets `isPast` exactly when the difference is
negative, decomposes `abs totalMs` by successive truncating integer
division into days, hours, minutes and seconds, and on a zero difference
(the only way `totalMs = 0` arises) yields the all-zero breakdown with
`isPast = false`. -/
theorem C1_calculateCountdown_fields (target now : Int) :
    (calculateCountdown target now).totalMs = target - now ∧
    ((calculateCountdown target now).isPast = true ↔ target - now < 0) ∧
    (calculateCountdown target now).days = (target - now).natAbs / 86400000 ∧
    (calculateCountdown target now).hours
      = (target - now).natAbs % 86400000 / 3600000 ∧
    (calculateCountdown target now).minutes
      = (target - now).natAbs % 3600000 / 60000 ∧
    (calculateCountdown target now).seconds
      = (target - now).natAbs % 60000 / 1000 ∧
    calculateCountdown now now =
      { totalMs := 0, days := 0, hours := 0, minutes := 0, seconds := 0,
        isPast := false } := by
  refine ⟨rfl, ?_, rfl, rfl, rfl, rfl, ?_⟩
  · simp [calculateCountdown]
  · simp [calculateCountdown]

/-- Claim C2: every breakdown produced by `calculateCountdown` satisfies
`days*86400 + hours*3600 + minutes*60 + seconds = abs totalMs / 1000`
(integer division), with `hours < 24`, `minutes < 60`, `seconds < 60`;
`days` is a natural number (non-negative by type) and attains every value,
hence has no upper bound. -/
theorem C2_countdown_invariant (target now : Int) :
    (calculateCountdown target now).days * 86400
        + (calculateCountdown target now).hours * 3600
        + (calculateCountdown target now).minutes * 60
        + (calculateCountdown target now).seconds
      = (target - now).natAbs / 1000 ∧
    (calculateCountdown target now).hours < 24 ∧
    (calculateCountdown target now).minutes < 60 ∧
    (calculateCountdown target now).seconds < 60 ∧
    (∀ b : Nat, ∃ t2 n2 : Int, (calculateCountdown t2 n2).days = b) := by
  refine ⟨?_, ?_, ?_, ?_, ?_⟩
  · simp only [calculateCountdown, MILLISECONDS_IN_DAY, MILLISECONDS_IN_HOUR,
      MILLISECONDS_IN_MINUTE, MILLISECONDS_IN_SECOND]
    omega
  · simp only [calculateCountdown, MILLISECONDS_IN_DAY, MILLISECONDS_IN_HOUR,
      MILLISECONDS_IN_MINUTE, MILLISECONDS_IN_SECOND]
    omega
  · simp only [calculateCountdown, MILLISECONDS_IN_DAY, MILLISECONDS_IN_HOUR,
      MILLISECONDS_IN_MINUTE, MILLISECONDS_IN_SECOND]
    omega
  · simp only [calculateCountdown, MILLISECONDS_IN_DAY, MILLISECONDS_IN_HOUR,
      MILLISECONDS_IN_MINUTE, MILLISECONDS_IN_SECOND]
    omega
  · intro b
    refine ⟨(b * 86400000 : Int), 0, ?_⟩
    simp only [calculateCountdown, MILLISECONDS_IN_DAY, MILLISECONDS_IN_HOUR,
      MILLISECONDS_IN_MINUTE, MILLISECONDS_IN_SECOND]
    omega

theorem strExt (a b : String) (h : a.data = b.data) : a = b := by
  cases a
  cases b
  exact congrArg String.mk h

theorem strData_append (a b : String) : (a ++ b).data = a.data ++ b.data := rfl

theorem strAppend_assoc (a b c : String) : a ++ b ++ c = a ++ (b ++ c) := by
  apply strExt
  simp [strData_append, List.append_assoc]

theorem decChars_ne_nil (n : Nat) : decChars n ≠ [] := by
  unfold decChars
  split
  · simp
  · rename_i h
    simp [Nat.digits_ne_nil_iff_ne_zero, h]

theorem decChars_head_not_minus (n : Nat) :
    ∃ ch, (decChars n).head? = some ch ∧ ch ≠ ('-') := by
  unfold decChars
  split
  · exact ⟨('0'), rfl, by decide⟩
  · rename_i h
    have hnil : (Nat.digits 10 n).reverse ≠ [] := by
      simp [Nat.digits_ne_nil_iff_ne_zero, h]
    obtain ⟨d, l, hdl⟩ := List.exists_cons_of_ne_nil hnil
    refine ⟨Nat.digitChar d, ?_, ?_⟩
    · rw [hdl]
      simp
    · have hmem : d ∈ Nat.digits 10 n := by
        have : d ∈ (Nat.digits 10 n).reverse := by
          rw [hdl]
          simp
        simpa using this
      have hd10 : d < 10 := Nat.digits_lt_base (by norm_num) hmem
      interval_cases d <;> decide

theorem pad2_head_not_minus (n : Nat) :
    ∃ ch, (pad2 n).data.head? = some ch ∧ ch ≠ ('-') := by
  obtain ⟨ch, hch, hne⟩ := decChars_head_not_minus n
  unfold pad2 padStart2
  split
  · exact ⟨ch, hch, hne⟩
  · rename_i h
    refine ⟨('0'), ?_, by decide⟩
    have hlen : (decStr n).length ≤ 1 := by omega
    have hrep : 2 - (decStr n).length = (1 - (decStr n).length) + 1 := by omega
    rw [strData_append, hrep, List.replicate_succ]
    rfl

theorem strEmpty_append (x : String) : "" ++ x = x :=
  strExt _ _ rfl

theorem formatTime_head_iff (c : CountdownTime) (ss : Bool)
    (h : ¬ (c.totalMs.natAbs < 1000 ∧ ss = false)) :
    ((formatTime c ss).data.head? = some ('-') ↔
      (c.isPast = true ∧ c.totalMs ≠ 0)) := by
  simp only [formatTime]
  rw [if_neg h]
  by_cases hp : c.isPast = true ∧ c.totalMs ≠ 0
  · rw [if_pos hp]
    cases ss <;> exact ⟨fun _ => hp, fun _ => rfl⟩
  · rw [if_neg hp]
    obtain ⟨ch, hch, hne⟩ := pad2_head_not_minus c.days
    cases hdata : (pad2 c.days).data with
    | nil =>
      rw [hdata] at hch
      exact absurd hch (by simp)
    | cons a t =>
      rw [hdata] at hch
      simp only [List.head?] at hch
      have ha : a = ch := Option.some.inj hch
      have hb2 : ("" ++ pad2 c.days ++ " : " ++ pad2 c.hours ++ " : "
          ++ pad2 c.minutes).data.head? = some a := by
        simp only [strData_append, hdata]
        rfl
      have hb1 : ("" ++ pad2 c.days ++ " : " ++ pad2 c.hours ++ " : "
          ++ pad2 c.minutes ++ " : " ++ pad2 c.seconds).data.head? = some a := by
        simp only [strData_append, hdata]
        rfl
      cases ss
      · show ("" ++ pad2 c.days ++ " : " ++ pad2 c.hours ++ " : "
            ++ pad2 c.minutes).data.head? = some ('-') ↔
          (c.isPast = true ∧ c.totalMs ≠ 0)
        rw [hb2]
        constructor
        · intro heq
          exact absurd (ha.symm.trans (Option.some.inj heq)) hne
        · intro hcon
          exact absurd hcon hp
      · show ("" ++ pad2 c.days ++ " : " ++ pad2 c.hours ++ " : "
            ++ pad2 c.minutes ++ " : " ++ pad2 c.seconds).data.head? = some ('-') ↔
          (c.isPast = true ∧ c.totalMs ≠ 0)
        rw [hb1]
        constructor
        · intro heq
          exact absurd (ha.symm.trans (Option.some.inj heq)) hne
        · intro hcon
          exact absurd hcon hp

theorem formatTime_subsecond (c : CountdownTime)
    (h : c.totalMs.natAbs < 1000) :
    formatTime c false = "00 : 00 : 00" := by
  simp only [formatTime]
  rw [if_pos ⟨h, trivial⟩]
  split <;> rfl

/-- Claim C6: `formatTime` prefixes a minus sign exactly when `isPast` holds
and `totalMs` is non-zero (outside the sub-second no-seconds special case,
which by the third conjunct replaces the computed fields, sign included, by
the all-zero literal); a zero duration is rendered without a sign regardless
of `isPast`; and when `abs totalMs < 1000` with seconds hidden the literal
all-zero form is returned. -/
theorem C6_formatTime_sign_policy :
    (∀ (c : CountdownTime) (ss : Bool),
        ¬ (c.totalMs.natAbs < 1000 ∧ ss = false) →
        ((formatTime c ss).data.head? = some ('-') ↔
          (c.isPast = true ∧ c.totalMs ≠ 0))) ∧
    (∀ (c : CountdownTime) (ss : Bool), c.totalMs = 0 →
        (formatTime c ss).data.head? ≠ some ('-')) ∧
    (∀ c : CountdownTime, c.totalMs.natAbs < 1000 →
        formatTime c false = "00 : 00 : 00") := by
  refine ⟨formatTime_head_iff, ?_, formatTime_subsecond⟩
  intro c ss h0
  by_cases hsp : c.totalMs.natAbs < 1000 ∧ ss = false
  · have hss : ss = false := hsp.2
    subst hss
    rw [formatTime_subsecond c hsp.1]
    decide
  · intro heq
    obtain ⟨-, hne⟩ := (formatTime_head_iff c ss hsp).mp heq
    exact hne h0

/-- Witness for claim C6 at concrete breakdowns: the past two-day fixture is
rendered with a leading minus, the zero breakdown is rendered unsigned even
with `isPast` set, and a sub-second past breakdown with seconds hidden
collapses to the all-zero literal. -/
theorem C6_witness :
    (formatTime (CountdownTime.mk (-100000000) 2 1 10 30 true)
        true).data.head? = some ('-') ∧
    (formatTime (CountdownTime.mk 0 0 0 0 0 true)
        true).data.head? ≠ some ('-') ∧
    formatTime (CountdownTime.mk (-500) 0 0 0 0 true) false
      = "00 : 00 : 00" := by
  refine ⟨?_, ?_, ?_⟩
  · exact (C6_formatTime_sign_policy.1 _ true (by decide)).mpr (by decide)
  · exact C6_formatTime_sign_policy.2.1 _ true (by decide)
  · exact C6_formatTime_sign_policy.2.2 _ (by decide)

theorem tenseAppend (x : String) (b : Bool) :
    x ++ " " ++ (if b then "ago" else "remaining") ++ "." =
      x ++ (if b then " ago." else " remaining.") := by
  cases b <;>
  · rw [strAppend_assoc, strAppend_assoc]
    rfl

/-- Claim C7: `formatHumanReadable` agrees everywhere with the rendering the
claim describes: sub-second messages by tense, a comma-joined list of the
non-zero fields among days, hours and minutes (seconds never shown) with
correct pluralization and a tense suffix, and the empty-list fallback
messages by tense. -/
theorem C7_formatHumanReadable_matches_claim (c : CountdownTime) :
    formatHumanReadable c = humanReadableOfClaim c := by
  simp only [formatHumanReadable, humanReadableOfClaim]
  by_cases h0 : c.totalMs.natAbs < 1000
  · rw [if_pos h0, if_pos h0]
  · rw [if_neg h0, if_neg h0]
    by_cases hd : 0 < c.days <;> by_cases hh : 0 < c.hours <;>
      by_cases hm : 0 < c.minutes <;>
        simp [hd, hh, hm, tenseAppend]

theorem schedule_armed_eq (prev : List ArmedTimer) (target now : Int)
    (rs : List Int) :
    scheduleNotifications prev true true false target now rs
      = (rs.filter (fun off => decide (now < target - off))).map
          (fun off => ⟨off, target - off⟩) := by
  have hg : ¬ (true = false ∨ true = false ∨ false = true) := by simp
  simp only [scheduleNotifications]
  rw [if_neg hg]
  induction rs with
  | nil => rfl
  | cons a l ih =>
    simp only [List.filterMap_cons, List.filter_cons]
    by_cases hc : now < target - a
    · simp [hc, ih]
    · simp [hc, ih]

/-- Claim C5: `scheduleNotifications` discards every previously armed timer
(its result does not depend on the previous timer state and rescheduling is
idempotent), arms exactly one timer per offset whose fire instant
`target - offset` is strictly after `now` and skips the rest, in the
concrete scenario `target = now + 2000` with offsets 1000 and 5000 arms
exactly one timer, and `cancelAllTimers` always leaves zero timers. -/
theorem C5_schedule_cancels_then_arms_future :
    (∀ (prev1 prev2 : List ArmedTimer) (en gr past : Bool)
        (target now : Int) (rs : List Int),
        scheduleNotifications prev1 en gr past target now rs
          = scheduleNotifications prev2 en gr past target now rs) ∧
    (∀ (prev : List ArmedTimer) (en gr past : Bool)
        (target now : Int) (rs : List Int),
        scheduleNotifications
            (scheduleNotifications prev en gr past target now rs)
            en gr past target now rs
          = scheduleNotifications prev en gr past target now rs) ∧
    (∀ (prev : List ArmedTimer) (target now : Int) (rs : List Int),
        scheduleNotifications prev true true false target now rs
          = (rs.filter (fun off => decide (now < target - off))).map
              (fun off => ⟨off, target - off⟩)) ∧
    (∀ (prev : List ArmedTimer) (now : Int),
        (scheduleNotifications prev true true false (now + 2000) now
            [1000, 5000]).length = 1) ∧
    (∀ prev : List ArmedTimer, cancelAllTimers prev = []) := by
  refine ⟨fun _ _ _ _ _ _ _ _ => rfl, fun _ _ _ _ _ _ _ => rfl,
    schedule_armed_eq, ?_, fun _ => rfl⟩
  intro prev now
  have h1 : now < now + 2000 - 1000 := by omega
  have h2 : ¬ (now < now + 2000 - 5000) := by omega
  rw [schedule_armed_eq]
  simp [h1, h2]

/-- Counterexample to claim C4: the reminder list is not deduplicated at
schedule time.  With `target = 10000`, `now = 0` and the duplicated offset
list `[1000, 1000]`, two timers are armed for offset 1000, not one. -/
theorem C4_counterexample :
    scheduleNotifications [] true true false 10000 0 [1000, 1000]
        = [⟨1000, 9000⟩, ⟨1000, 9000⟩] ∧
    (scheduleNotifications [] true true false 10000 0 [1000, 1000]).length
      ≠ 1 := by
  constructor
  · rfl
  · decide

/-- Claim C4 as amended: `scheduleNotifications` performs no set
deduplication; it arms one timer per occurrence of an offset in the
reminder list, so a still-future offset occurring twice arms exactly two
timers.  Duplicate freeness is maintained upstream, by the reminder-toggle
handler, not here. -/
theorem C4_schedule_arms_per_occurrence (prev : List ArmedTimer)
    (target now off : Int) (rs : List Int) (h : now < target - off) :
    ((scheduleNotifications prev true true false target now rs).filter
        (fun t => decide (t.offset = off))).length = rs.count off := by
  rw [schedule_armed_eq]
  induction rs with
  | nil => simp
  | cons a l ih =>
    simp only [List.filter_cons]
    by_cases hnow : now < target - a
    · by_cases ha : a = off
      · subst ha
        simp [hnow, List.count_cons, ih]
      · simp [hnow, ha, List.count_cons, ih]
    · have ha : a ≠ off := by
        intro he
        exact hnow (he ▸ h)
      simp [hnow, ha, List.count_cons, ih]

/-- Witness for the amended claim C4 at a concrete input: offset 1000 occurs
twice in the list and is still in the future, and exactly two timers are
armed for it. -/
theorem C4_witness :
    (0 : Int) < 10000 - 1000 ∧
    ((scheduleNotifications [] true true false 10000 0
          [1000, 1000, 5000]).filter
        (fun t => decide (t.offset = 1000))).length
      = [(1000 : Int), 1000, 5000].count 1000 :=
  ⟨by decide,
    C4_schedule_arms_per_occurrence [] 10000 0 1000 [1000, 1000, 5000]
      (by decide)⟩

/-- Claim C9: `loadSettings` always returns a fully populated record (it is
total, hence never throws); the two forced fields are `true` and the dark
theme regardless of what was stored; an absent or unparseable stored value
yields all defaults; and for a parsed record each absent field is replaced
by its default while each present optional field is kept. -/
theorem C9_loadSettings_defaults :
    (∀ (stored : Option StoredSettings) (d : String),
        (loadSettings stored d).useKolkataTimezone = true ∧
        (loadSettings stored d).baseTheme = "dark") ∧
    (∀ d : String,
        loadSettings none d =
          { title := "JEE Exam"
            targetDate := DEFAULT_TARGET_DATE_ISO
            startDate := d
            showSeconds := true
            useKolkataTimezone := true
            baseTheme := "dark"
            colorScheme := "blue-ocean"
            notificationReminders :=
              [ReminderOption_ONE_DAY, ReminderOption_ONE_HOUR]
            notificationEnabled := false }) ∧
    (∀ (s : StoredSettings) (d : String),
        (s.title = none → (loadSettings (some s) d).title = "JEE Exam") ∧
        (∀ v, s.title = some v → (loadSettings (some s) d).title = v) ∧
        (s.targetDate = none →
          (loadSettings (some s) d).targetDate = DEFAULT_TARGET_DATE_ISO) ∧
        (∀ v, s.targetDate = some v →
          (loadSettings (some s) d).targetDate = v) ∧
        (s.startDate = none → (loadSettings (some s) d).startDate = d) ∧
        (∀ v, s.startDate = some v → (loadSettings (some s) d).startDate = v) ∧
        (s.showSeconds = none → (loadSettings (some s) d).showSeconds = true) ∧
        (∀ v, s.showSeconds = some v →
          (loadSettings (some s) d).showSeconds = v) ∧
        (s.colorScheme = none →
          (loadSettings (some s) d).colorScheme = "blue-ocean") ∧
        (∀ v, s.colorScheme = some v →
          (loadSettings (some s) d).colorScheme = v) ∧
        (s.notificationReminders = none →
          (loadSettings (some s) d).notificationReminders =
            [ReminderOption_ONE_DAY, ReminderOption_ONE_HOUR]) ∧
        (∀ v, s.notificationReminders = some v →
          (loadSettings (some s) d).notificationReminders = v) ∧
        (s.notificationEnabled = none →
          (loadSettings (some s) d).notificationEnabled = false) ∧
        (∀ v, s.notificationEnabled = some v →
          (loadSettings (some s) d).notificationEnabled = v)) := by
  refine ⟨?_, ?_, ?_⟩
  · intro stored d
    cases stored <;> exact ⟨rfl, rfl⟩
  · intro d
    rfl
  · intro s d
    refine ⟨?_, ?_, ?_, ?_, ?_, ?_, ?_, ?_, ?_, ?_, ?_, ?_, ?_, ?_⟩ <;>
      first
        | (intro h
           simp [loadSettings, h])
        | (intro v h
           simp [loadSettings, h])

/-- Witness for claim C9 at a concrete stored record that has some fields
absent and others present, including a stored attempt to disable the
Kolkata timezone and switch the base theme, which is overridden. -/
theorem C9_witness :
    (loadSettings (some
        { title := none
          targetDate := some "2027-01-01T00:00:00.000Z"
          startDate := none
          showSeconds := some false
          useKolkataTimezone := some false
          baseTheme := some "light"
          colorScheme := none
          notificationReminders := some [0]
          notificationEnabled := none }) "now-iso").title = "JEE Exam" ∧
    (loadSettings (some
        { title := none
          targetDate := some "2027-01-01T00:00:00.000Z"
          startDate := none
          showSeconds := some false
          useKolkataTimezone := some false
          baseTheme := some "light"
          colorScheme := none
          notificationReminders := some [0]
          notificationEnabled := none }) "now-iso").useKolkataTimezone
      = true := by
  constructor
  · exact ((C9_loadSettings_defaults.2.2 _ "now-iso").1) rfl
  · exact (C9_loadSettings_defaults.1 _ "now-iso").1

theorem mem_dedupSeen (x : Int) :
    ∀ (l seen : List Int), x ∈ dedupSeen seen l ↔ (x ∈ l ∧ x ∉ seen) := by
  intro l
  induction l with
  | nil => simp [dedupSeen]
  | cons a t ih =>
    intro seen
    simp only [dedupSeen]
    by_cases ha : a ∈ seen
    · rw [if_pos ha]
      rw [ih seen]
      constructor
      · rintro ⟨hx, hns⟩
        exact ⟨List.mem_cons_of_mem a hx, hns⟩
      · rintro ⟨hx, hns⟩
        rcases List.mem_cons.mp hx with hx | hx
        · exact absurd (hx ▸ ha) hns
        · exact ⟨hx, hns⟩
    · rw [if_neg ha]
      constructor
      · intro hx
        rcases List.mem_cons.mp hx with hx | hx
        · exact ⟨hx ▸ List.mem_cons_self a t, hx ▸ ha⟩
        · obtain ⟨h1, h2⟩ := (ih (a :: seen)).mp hx
          exact ⟨List.mem_cons_of_mem a h1,
            fun hs => h2 (List.mem_cons_of_mem a hs)⟩
      · rintro ⟨hx, hns⟩
        by_cases hxa : x = a
        · exact hxa ▸ List.mem_cons_self a _
        · rcases List.mem_cons.mp hx with hx | hx
          · exact absurd hx hxa
          · refine List.mem_cons_of_mem a ((ih (a :: seen)).mpr ⟨hx, ?_⟩)
            intro hs
            rcases List.mem_cons.mp hs with hs | hs
            · exact hxa hs
            · exact hns hs

theorem nodup_dedupSeen :
    ∀ (l seen : List Int), (dedupSeen seen l).Nodup := by
  intro l
  induction l with
  | nil =>
    intro seen
    simp [dedupSeen]
  | cons a t ih =>
    intro seen
    simp only [dedupSeen]
    by_cases ha : a ∈ seen
    · rw [if_pos ha]
      exact ih seen
    · rw [if_neg ha]
      refine List.Nodup.cons ?_ (ih (a :: seen))
      intro hmem
      exact ((mem_dedupSeen a t (a :: seen)).mp hmem).2 (List.mem_cons_self a seen)

theorem mem_dedupKeepFirst (x : Int) (xs : List Int) :
    x ∈ dedupKeepFirst xs ↔ x ∈ xs := by
  rw [dedupKeepFirst, mem_dedupSeen]
  simp

/-- Claim C10: the reminder-toggle operation preserves duplicate freeness of
the stored reminder list; toggling on behaves as set union (its element set
is the previous one plus the toggled offset, so toggling an already present
offset leaves the element set unchanged), and toggling off removes every
occurrence of the offset while keeping everything else. -/
theorem C10_handleReminderChange_set_semantics :
    (∀ (prev : List Int) (r : Int) (b : Bool),
        prev.Nodup → (handleReminderChange prev r b).Nodup) ∧
    (∀ (prev : List Int) (r x : Int),
        x ∈ handleReminderChange prev r true ↔ (x ∈ prev ∨ x = r)) ∧
    (∀ (prev : List Int) (r : Int), r ∈ prev →
        ∀ x, (x ∈ handleReminderChange prev r true ↔ x ∈ prev)) ∧
    (∀ (prev : List Int) (r : Int), r ∉ handleReminderChange prev r false) ∧
    (∀ (prev : List Int) (r x : Int), x ≠ r →
        (x ∈ handleReminderChange prev r false ↔ x ∈ prev)) := by
  refine ⟨?_, ?_, ?_, ?_, ?_⟩
  · intro prev r b hnd
    cases b
    · simpa [handleReminderChange] using List.Nodup.filter _ hnd
    · simpa [handleReminderChange, dedupKeepFirst] using
        nodup_dedupSeen (prev ++ [r]) []
  · intro prev r x
    rw [handleReminderChange, if_pos rfl, mem_dedupKeepFirst]
    simp
  · intro prev r hr x
    rw [handleReminderChange, if_pos rfl, mem_dedupKeepFirst]
    simp only [List.mem_append, List.mem_singleton]
    constructor
    · rintro (hx | hx)
      · exact hx
      · exact hx ▸ hr
    · intro hx
      exact Or.inl hx
  · intro prev r
    rw [handleReminderChange, if_neg (by simp)]
    simp
  · intro prev r x hxr
    rw [handleReminderChange, if_neg (by simp)]
    simp [List.mem_filter, hxr]

/-- Witness for claim C10 at concrete lists: toggling 3600000 onto the
duplicate-free list keeps it duplicate free, toggling an already present
offset leaves membership unchanged, and toggling 3600000 off removes it. -/
theorem C10_witness :
    (handleReminderChange [86400000, 3600000] 3600000 true).Nodup ∧
    ((86400000 : Int) ∈ handleReminderChange [86400000, 3600000] 3600000 true
      ↔ (86400000 : Int) ∈ [(86400000 : Int), 3600000]) ∧
    (3600000 : Int) ∉ handleReminderChange [86400000, 3600000] 3600000 false ∧
    ((86400000 : Int) ∈ handleReminderChange [86400000, 3600000] 3600000 false
      ↔ (86400000 : Int) ∈ [(86400000 : Int), 3600000]) := by
  refine ⟨?_, ?_, ?_, ?_⟩
  · exact C10_handleReminderChange_set_semantics.1 _ 3600000 true (by decide)
  · exact C10_handleReminderChange_set_semantics.2.2.1 _ 3600000 (by decide)
      86400000
  · exact C10_handleReminderChange_set_semantics.2.2.2.1 _ 3600000
  · exact C10_handleReminderChange_set_semantics.2.2.2.2 _ 3600000 86400000
      (by decide)

theorem yoeApprox_mono (a b : Nat) (h : a ≤ b) : yoeApprox a ≤ yoeApprox b := by
  have step : ∀ n : Nat, yoeApprox n ≤ yoeApprox (n + 1) := by
    intro n
    unfold yoeApprox
    omega
  induction h with
  | refl => exact Nat.le_refl _
  | @step m h2 ih => exact Nat.le_trans ih (step m)

set_option maxRecDepth 4000 in
theorem yoe_boundary : ∀ y : Nat, y < 400 →
    365 * y ≤ yoeApprox (yoeFirstDoe y) ∧
    yoeApprox (yoeLastDoe y) ≤ 365 * y + 364 ∧
    yoeFirstDoe y ≤ yoeLastDoe y ∧
    yoeLastDoe y ≤ yoeFirstDoe y + 365 := by
  decide

theorem yoe_cover : ∀ doe : Nat, doe ≤ 146096 →
    ∃ y, y < 400 ∧ yoeFirstDoe y ≤ doe ∧ doe ≤ yoeLastDoe y := by
  intro doe
  induction doe with
  | zero =>
    intro _
    exact ⟨0, by norm_num, by decide, by decide⟩
  | succ n ih =>
    intro hn1
    obtain ⟨y, hy, h1, h2⟩ := ih (by omega)
    by_cases hle : n + 1 ≤ yoeLastDoe y
    · exact ⟨y, hy, by omega, hle⟩
    · have hyne : y ≠ 399 := by
        intro he
        subst he
        have : yoeLastDoe 399 = 146096 := by decide
        omega
      have hUy : yoeLastDoe y = yoeFirstDoe (y + 1) - 1 := by
        unfold yoeLastDoe
        rw [if_neg hyne]
      have hpos : 1 ≤ yoeFirstDoe (y + 1) := by
        unfold yoeFirstDoe
        omega
      obtain ⟨b1, b2, b3, b4⟩ := yoe_boundary (y + 1) (by omega)
      refine ⟨y + 1, by omega, by omega, by omega⟩

theorem yoe_correct (doe : Nat) (h : doe ≤ 146096) :
    (doe - doe / 1460 + doe / 36524 - doe / 146096) / 365 ≤ 399 ∧
    yoeFirstDoe ((doe - doe / 1460 + doe / 36524 - doe / 146096) / 365) ≤ doe ∧
    doe - yoeFirstDoe ((doe - doe / 1460 + doe / 36524 - doe / 146096) / 365)
      ≤ 365 := by
  obtain ⟨y, hy, h1, h2⟩ := yoe_cover doe h
  obtain ⟨b1, b2, b3, b4⟩ := yoe_boundary y hy
  have m1 : yoeApprox (yoeFirstDoe y) ≤ yoeApprox doe := yoeApprox_mono _ _ h1
  have m2 : yoeApprox doe ≤ yoeApprox (yoeLastDoe y) := yoeApprox_mono _ _ h2
  have hrw : yoeApprox doe = doe - doe / 1460 + doe / 36524 - doe / 146096 := rfl
  have heq : (doe - doe / 1460 + doe / 36524 - doe / 146096) / 365 = y := by
    omega
  rw [heq]
  exact ⟨by omega, h1, by omega⟩

theorem doe_roundtrip (doe yoe doy mp d m : Nat)
    (hdoe : doe ≤ 146096)
    (hyoe : yoe = (doe - doe / 1460 + doe / 36524 - doe / 146096) / 365)
    (hdoy : doy = doe - (365 * yoe + yoe / 4 - yoe / 100))
    (hmp : mp = (5 * doy + 2) / 153)
    (hd : d = doy - (153 * mp + 2) / 5 + 1)
    (hm : m = if mp < 10 then mp + 3 else mp - 9) :
    yoe ≤ 399 ∧ 1 ≤ m ∧ m ≤ 12 ∧ 1 ≤ d ∧ ((m ≤ 2) ↔ (10 ≤ mp)) ∧
    (153 * (if 2 < m then m - 3 else m + 9) + 2) / 5 + d - 1 = doy ∧
    365 * yoe + yoe / 4 - yoe / 100 + doy = doe := by
  obtain ⟨c1, c2, c3⟩ := yoe_correct doe hdoe
  rw [← hyoe] at c1 c2 c3
  unfold yoeFirstDoe at c2 c3
  have hdoy365 : doy ≤ 365 := by omega
  have hmp11 : mp ≤ 11 := by omega
  by_cases h10 : mp < 10
  · subst hm
    simp only [if_pos h10]
    rw [if_pos (show 2 < mp + 3 by omega)]
    omega
  · subst hm
    simp only [if_neg h10]
    rw [if_neg (show ¬ 2 < mp - 9 by omega)]
    omega

set_option maxHeartbeats 1600000 in
theorem daysFromCivil_civilFromDays (z : Int) :
    daysFromCivil (civilFromDays z).year (civilFromDays z).month
      (civilFromDays z).day = z := by
  simp only [civilFromDays]
  generalize hera : (z + 719468) / 146097 = era
  generalize hdoe : ((z + 719468) % 146097).toNat = doe
  have hdoeB : doe ≤ 146096 := by omega
  generalize hyoe : (doe - doe / 1460 + doe / 36524 - doe / 146096) / 365 = yoe
  generalize hdoy : doe - (365 * yoe + yoe / 4 - yoe / 100) = doy
  generalize hmp : (5 * doy + 2) / 153 = mp
  generalize hd : doy - (153 * mp + 2) / 5 + 1 = d
  generalize hm : (if mp < 10 then mp + 3 else mp - 9) = m
  obtain ⟨r1, r2, r3, r4, r5, r6, r7⟩ :=
    doe_roundtrip doe yoe doy mp d m hdoeB hyoe.symm hdoy.symm hmp.symm
      hd.symm hm.symm
  simp only [daysFromCivil]
  rw [r6]
  clear hyoe hdoy hmp hd hm r2 r3 r4 r5 r6 hdoeB
  by_cases hm2 : m ≤ 2
  · simp only [if_pos hm2]
    have he : (era * 400 + (yoe : Int) + 1 - 1) / 400 = era := by omega
    rw [he]
    have hf : (era * 400 + (yoe : Int) + 1 - 1 - era * 400).toNat = yoe := by
      omega
    rw [hf]
    omega
  · simp only [if_neg hm2]
    have he : (era * 400 + (yoe : Int) + 0 - 0) / 400 = era := by omega
    rw [he]
    have hf : (era * 400 + (yoe : Int) + 0 - 0 - era * 400).toNat = yoe := by
      omega
    rw [hf]
    omega

/-- Claim C3: for every instant and both zone kinds (the fixed +05:30 zone
and the ambient host zone at any whole-minute offset), converting to the
naive local value and back reproduces the instant truncated to the minute
(seconds and milliseconds zeroed); and the naive local string
`2025-01-15T16:00` in the fixed zone denotes exactly the instant
1736937000000, which is 2025-01-15T10:30:00.000Z in UTC civil terms. -/
theorem C3_naive_local_roundtrip :
    (∀ (t : Int) (z : ZoneRef) (amb : Int),
        fromNaiveLocal (toNaiveLocal t z amb) z amb = t - t % 60000) ∧
    (∀ amb : Int,
        getUTCFromDateTimeLocalAndTz "2025-01-15T16:00" ZoneRef.kolkata amb
          = some 1736937000000) ∧
    daysFromCivil 2025 1 15 * 86400000 + 10 * 3600000 + 30 * 60000
      = 1736937000000 := by
  refine ⟨?_, ?_, ?_⟩
  · intro t z amb
    simp only [fromNaiveLocal, toNaiveLocal]
    rw [daysFromCivil_civilFromDays]
    omega
  · intro amb
    rfl
  · decide

/-- Claim C8: for either zone, the empty string and the malformed string
`not-a-date` yield the invalid instant rather than an exception (the
embedding is total), and `isValidDateInput` returns true exactly when
`getUTCFromDateTimeLocalAndTz` denotes a valid instant. -/
theorem C8_invalid_inputs_and_validity :
    (∀ (z : ZoneRef) (amb : Int),
        getUTCFromDateTimeLocalAndTz "" z amb = none) ∧
    (∀ (z : ZoneRef) (amb : Int),
        getUTCFromDateTimeLocalAndTz "not-a-date" z amb = none) ∧
    (∀ (s : String) (z : ZoneRef) (amb : Int),
        isValidDateInput s z amb
          = (getUTCFromDateTimeLocalAndTz s z amb).isSome) := by
  refine ⟨fun z amb => rfl, fun z amb => rfl, fun s z amb => ?_⟩
  by_cases hs : s = ""
  · subst hs
    rfl
  · simp [isValidDateInput, getUTCFromDateTimeLocalAndTz, hs]
